import Mathlib

/-!
A verification development for the FTPS protocol core of `mod_tls.c`
(proftpd).  The definitions below are shallow embeddings of the C
functions named in their doc comments; machine integers are modelled as
`Nat`/`Int`, pointers that may be NULL as `Option`, and byte buffers as
`List Nat`.  The theorems at the end of the file settle the spec claims
against these definitions.
-/

namespace ModTLS

/-! ## Session ticket key ring (`struct tls_ticket_key`, mod_tls.c) -/

/-- Embedding of `struct tls_ticket_key`: a 16-byte key name and the
`created` timestamp (`time_t`, seconds).  The 32-byte cipher and HMAC
keys play no role in the claims, so only their presence is recorded. -/
structure TicketKey where
  keyName : List Nat
  created : Nat
  deriving Repr, DecidableEq

/-- Defaults of `tls_ticket_key_max_age` (43200) and
`tls_ticket_key_max_count` (25) in mod_tls.c. -/
def defaultTicketKeyMaxAge : Nat := 43200

/-- Default of `tls_ticket_key_max_count` in mod_tls.c. -/
def defaultTicketKeyMaxCount : Nat := 25

/-- Embedding of `remove_expired_ticket_keys`: if fewer than two keys are
present, nothing is removed ("Always keep at least one key"); otherwise
every key whose age `now - created` exceeds `maxAge` is removed.  The
ring is the `tls_ticket_keys` xaset, time-ordered newest first. -/
def remove_expired_ticket_keys (maxAge now : Nat) (ring : List TicketKey) :
    List TicketKey :=
  if ring.length < 2 then ring
  else ring.filter (fun k => !(decide (maxAge < now - k.created)))

/-- Embedding of `remove_oldest_ticket_key`: if fewer than two keys are
present nothing is removed; otherwise the last (oldest) key of the
time-ordered set is removed. -/
def remove_oldest_ticket_key (ring : List TicketKey) : List TicketKey :=
  if ring.length < 2 then ring
  else ring.dropLast

/-- Embedding of `add_ticket_key`: first expired keys are removed, then,
if the ring is full (`curr_count == max_count`), the oldest key is
removed, and finally the new key is inserted.

Modelled from the spec: the insertion itself goes through
`xaset_insert_sort` (proftpd's lib/, not part of this repository); the
spec describes the ring as "a time-ordered list, newest first", and the
key being admitted is freshly created (`k.created = now`, no older than
any key present), so the sorted insert places it at the head. -/
def add_ticket_key (maxAge maxCount now : Nat) (k : TicketKey)
    (ring : List TicketKey) : List TicketKey :=
  let ring1 := remove_expired_ticket_keys maxAge now ring
  let ring2 := if ring1.length = maxCount then remove_oldest_ticket_key ring1
               else ring1
  k :: ring2

/-- Embedding of the `tls_ticket_keys == NULL` branch of `tls_init_ctx`:
the set is created empty and one freshly generated key (`created = now`)
is admitted via `add_ticket_key`. -/
def init_ticket_ring (maxAge maxCount now : Nat) (name : List Nat) :
    List TicketKey :=
  add_ticket_key maxAge maxCount now ⟨name, now⟩ []

/-- Embedding of `new_ticket_key_timer_cb` (success path of
`create_ticket_key`): one new key with `created = now` is generated and
admitted into the ring via `add_ticket_key`. -/
def new_ticket_key_timer_cb (maxAge maxCount now : Nat) (name : List Nat)
    (ring : List TicketKey) : List TicketKey :=
  add_ticket_key maxAge maxCount now ⟨name, now⟩ ring

/-- Embedding of the new-ticket-key timer interval computed in
`tls_init_ctx`: `new_ticket_key_intvl = 3600`, lowered to
`max_age - 1` only when `max_age < 3600`. -/
def new_ticket_key_intvl (maxAge : Nat) : Nat :=
  if maxAge < 3600 then maxAge - 1 else 3600

/-- The states of the ticket key ring reachable after initialization:
the ring produced by `tls_init_ctx` at some time `t0`, followed by any
number of timer firings (`new_ticket_key_timer_cb`) at non-decreasing
times.  The paired `Nat` is the time of the most recent operation. -/
inductive RingReachable (maxAge maxCount : Nat) : Nat → List TicketKey → Prop
  | init (t0 : Nat) (name : List Nat) :
      RingReachable maxAge maxCount t0 (init_ticket_ring maxAge maxCount t0 name)
  | tick (t t' : Nat) (name : List Nat) (ring : List TicketKey) :
      RingReachable maxAge maxCount t ring → t ≤ t' →
      RingReachable maxAge maxCount t'
        (new_ticket_key_timer_cb maxAge maxCount t' name ring)

/-! ## Session ticket key callback (`tls_ticket_key_cb`, mode 0) and the
TLSv1.3 session ticket decrypt callbacks -/

/-- Embedding of `get_ticket_key`: linear scan of the ring for the first
key whose 16-byte name matches (`memcmp(key_name, k->key_name, 16)`). -/
def get_ticket_key (ring : List TicketKey) (name : List Nat) :
    Option TicketKey :=
  ring.find? (fun k => k.keyName = name)

/-- Embedding of the `mode == 0` (decrypt) path of `tls_ticket_key_cb`,
on the happy path of the HMAC/cipher initializations.  `isTLS13` is
`SSL_version(ssl) == TLS1_3_VERSION`.  A missing key yields 0 (reject);
a matched key yields 2 ("renew") for TLSv1.3 sessions and 1 ("use")
otherwise.  The `k != newest_key` comparison in the C code only emits a
trace message and does not affect the return value. -/
def tls_ticket_key_cb_decrypt (ring : List TicketKey) (name : List Nat)
    (isTLS13 : Bool) : Int :=
  match get_ticket_key ring name with
  | none => 0
  | some _ => if isTLS13 then 2 else 1

/-- The `SSL_TICKET_STATUS` values passed to the TLSv1.3 session ticket
decrypt callbacks.  `successRenew` is the status OpenSSL reports when the
ticket decrypted and the ticket key callback asked for a renewal. -/
inductive TicketStatus
  | empty
  | noDecrypt
  | success
  | successRenew
  deriving Repr, DecidableEq

/-- The `SSL_TICKET_RETURN` values produced by those callbacks. -/
inductive TicketRet
  | ignore
  | ignoreRenew
  | use
  | useRenew
  deriving Repr, DecidableEq

/-- Embedding of `tls_decrypt_ctrl_session_ticket_cb` (return value as a
function of the ticket status; the appdata bookkeeping is not modelled
here). -/
def tls_decrypt_ctrl_session_ticket_cb : TicketStatus → TicketRet
  | .empty => .ignoreRenew
  | .noDecrypt => .ignoreRenew
  | .success => .use
  | .successRenew => .useRenew

/-- Embedding of `tls_decrypt_data_session_ticket_cb`: data transfers
use decryptable tickets but never ask for renewal (Issue #959). -/
def tls_decrypt_data_session_ticket_cb : TicketStatus → TicketRet
  | .success => .use
  | .successRenew => .use
  | .empty => .ignore
  | .noDecrypt => .ignore

/-! ## OCSP response staleness (`ocsp_stale_response`) -/

/-- The outcome of `ocsp_stale_response`: whether the cached response is
considered stale (the C function returns 0 for stale, -1 for fresh) and
whether `*expired` was set. -/
structure OcspStaleness where
  stale : Bool
  expired : Bool
  deriving Repr, DecidableEq

/-- Embedding of `ocsp_stale_response`.  `successful` is
`OCSP_response_status(resp) == OCSP_RESPONSE_STATUS_SUCCESSFUL`;
`basicOk` is whether `OCSP_response_get1_basic` succeeded; `findOk`
covers the issuer lookup, `OCSP_cert_to_id` and `OCSP_resp_find_status`
chain.  `X509_cmp_time(s, &t)` returns -1 when the ASN.1 time `s` is
earlier than or equal to `t`, so the expiry test `res < 0` becomes
`nextUpdate ≤ now`, and the staleness test
`X509_cmp_time(this_update, &refresh_ts) < 0` becomes
`thisUpdate ≤ now - (nextUpdate - thisUpdate).tdiv 2` (C integer
division truncates toward zero, which is `Int.tdiv`). -/
def ocsp_stale_response (successful basicOk findOk : Bool)
    (thisUpdate : Int) (nextUpdate : Option Int) (now age : Int) :
    OcspStaleness :=
  if successful then
    if basicOk then
      if findOk then
        match nextUpdate with
        | some nu =>
          if nu ≤ now then ⟨true, true⟩
          else
            let validitySecs := nu - thisUpdate
            let refreshTs := now - validitySecs.tdiv 2
            if thisUpdate ≤ refreshTs then ⟨true, false⟩ else ⟨false, false⟩
        | none => ⟨decide (age > 3600), false⟩
      else ⟨false, false⟩
    else ⟨decide (age > 300), false⟩
  else ⟨decide (age > 300), false⟩

/-! ## DH parameter selection (`tls_dh_cb`) -/

/-- `TLS_DH_MIN_LEN` in mod_tls.c. -/
def TLS_DH_MIN_LEN : Int := 2048

/-- The type of the certificate private key, as classified by
`get_pkey_type` (`EVP_PKEY_RSA`, `EVP_PKEY_DSA`, or anything else). -/
inductive PKeyKind
  | rsa
  | dsa
  | ec
  | other
  deriving Repr, DecidableEq

/-- The DH parameters returned by `tls_dh_cb`: either an entry of the
configured `tls_tmp_dhs` list (identified by its size `DH_size * 8` in
bits) or one of the built-in parameter sets (`get_dh512` ...
`get_dh4096`), identified by its size in bits. -/
inductive DHParam
  | configured (bits : Nat)
  | builtin (bits : Nat)
  deriving Repr, DecidableEq

/-- Embedding of the first search loop of `tls_dh_cb` over the
configured DH parameters (sizes in bits): an exact match for `keylen`
returns immediately (`Sum.inl`); otherwise the running "best" (the
smallest size strictly larger than `keylen`, first occurrence kept on
ties) is threaded through and returned at the end (`Sum.inr`). -/
def dh_search_loop (keylen : Int) : List Nat → Option Nat → Nat ⊕ Option Nat
  | [], best => Sum.inr best
  | d :: rest, best =>
    if (d : Int) = keylen then Sum.inl d
    else if (d : Int) > keylen then
      match best with
      | some b => if d < b then dh_search_loop keylen rest (some d)
                  else dh_search_loop keylen rest best
      | none => dh_search_loop keylen rest (some d)
    else dh_search_loop keylen rest best

/-- Embedding of the built-in fallback switch of `tls_dh_cb`: a fixed
parameter set of the matching size, defaulting to 1024 bits for any
other requested length. -/
def dh_builtin (keylen : Int) : DHParam :=
  if keylen = 512 then .builtin 512
  else if keylen = 768 then .builtin 768
  else if keylen = 1024 then .builtin 1024
  else if keylen = 1536 then .builtin 1536
  else if keylen = 2048 then .builtin 2048
  else if keylen = 3072 then .builtin 3072
  else if keylen = 4096 then .builtin 4096
  else .builtin 1024

/-- Embedding of `tls_dh_cb`.  `allowWeakDH` is the `AllowWeakDH`
TLSOption; `pkey` is the certificate private key (kind and bit length)
from `SSL_get_privatekey`, `none` when absent; `dhs` is the configured
`tls_tmp_dhs` list of parameter sizes in bits, in list order; `keylen0`
is the requested key length in bits.

The C function first derives `pkeylen` from an RSA/DSA private key
(raising it to `TLS_DH_MIN_LEN` when `AllowWeakDH` is not set) and
records whether it differs from `keylen`; it then scans the configured
parameters twice, once against `keylen` and once against `pkeylen`,
sharing the "best" (smallest larger) candidate between the scans; if
nothing is found it falls back to the built-in parameters, raising
`keylen` to `TLS_DH_MIN_LEN` when weak DH is not allowed and replacing
it with `pkeylen` when `use_pkeylen` was set. -/
def tls_dh_cb (allowWeakDH : Bool) (pkey : Option (PKeyKind × Int))
    (dhs : List Nat) (keylen0 : Int) : DHParam :=
  let pk : Int × Bool :=
    match pkey with
    | some (kind, bits) =>
      if kind = .rsa ∨ kind = .dsa then
        let pl := if bits < TLS_DH_MIN_LEN ∧ ¬allowWeakDH then TLS_DH_MIN_LEN
                  else bits
        (pl, pl ≠ keylen0)
      else (0, false)
    | none => (0, false)
  let pkeylen := pk.1
  let usePkeylen := pk.2
  let fromConfigured : Option DHParam :=
    if dhs ≠ [] then
      match dh_search_loop keylen0 dhs none with
      | Sum.inl d => some (.configured d)
      | Sum.inr best1 =>
        match dh_search_loop pkeylen dhs best1 with
        | Sum.inl d => some (.configured d)
        | Sum.inr (some b) => some (.configured b)
        | Sum.inr none => none
    else none
  match fromConfigured with
  | some p => p
  | none =>
    let keylen1 := if keylen0 < TLS_DH_MIN_LEN ∧ ¬allowWeakDH then
                     TLS_DH_MIN_LEN
                   else keylen0
    let keylen2 := if usePkeylen then pkeylen else keylen1
    dh_builtin keylen2

/-- The DH selection procedure as the claim words it (for comparison
with `tls_dh_cb`): an exact `keylen` match among the configured
parameters is returned; otherwise the smallest configured parameter
strictly larger than `keylen`; otherwise a built-in parameter, with
`keylen` overridden to 2048 when `AllowWeakDH` is not set and
`keylen < 2048`. -/
def dh_cb_claim (allowWeakDH : Bool) (dhs : List Nat) (keylen0 : Int) :
    DHParam :=
  match dhs.find? (fun d : Nat => decide ((d : Int) = keylen0)) with
  | some d => .configured d
  | none =>
    let larger := dhs.filter (fun d : Nat => decide ((d : Int) > keylen0))
    match larger.min? with
    | some b => .configured b
    | none =>
      let keylen1 := if keylen0 < 2048 ∧ ¬allowWeakDH then 2048 else keylen0
      dh_builtin keylen1

/-! ## FTPS command handlers: AUTH, PBSZ, PROT, CCC -/

/-- The `tls_flags` bits relevant to the claims (`TLS_SESS_ON_CTRL`,
`TLS_SESS_PBSZ_OK`, `TLS_SESS_NEED_DATA_PROT`, `TLS_SESS_HAVE_CCC`). -/
structure SessFlags where
  onCtrl : Bool
  pbszOk : Bool
  needDataProt : Bool
  haveCcc : Bool
  deriving Repr, DecidableEq

/-- The outcome of a MODRET command handler: declined to other modules,
an error reply with the given FTP response code, a handled command with
the given response code and updated session flags, or a forced
disconnect of the whole session (after sending the given response). -/
inductive CmdOutcome
  | declined
  | err (reply : Nat)
  | handled (reply : Nat) (flags : SessFlags)
  | disconnected (reply : Nat)
  deriving Repr, DecidableEq

/-- `toupper` on one ASCII character, as applied by the upper-casing
loop in `tls_auth` (the argument bytes are ASCII). -/
def toUpperChar (c : Char) : Char :=
  if 97 ≤ c.toNat ∧ c.toNat ≤ 122 then Char.ofNat (c.toNat - 32) else c

/-- ASCII upper-casing of the AUTH argument, as done by the `toupper`
loop in `tls_auth`. -/
def upperMode (s : String) : String :=
  ⟨s.data.map toUpperChar⟩

/-- Embedding of `tls_auth`.  Guards already passed: `tls_engine` is on.
`argc` is `cmd->argc`; `arg` is `cmd->argv[1]` (meaningful only when
`2 ≤ argc`); `haveCert` is whether any of `tls_rsa_cert_file`,
`tls_dsa_cert_file`, `tls_ec_cert_file`, `tls_pkcs12_file` is set;
`authenticated` and `allowPerUser` model the USER/PASS +
`AllowPerUser` check; `handshakeOk` is the result of
`tls_accept(session.c, FALSE)` (on failure the session is disconnected
after a 421 reply, regardless of `TLSRequired`).  Note the `strncmp`
calls compare through the terminating NUL, i.e. they are exact string
comparisons on the upper-cased argument. -/
def tls_auth (flags : SessFlags) (argc : Nat) (arg : String)
    (haveCert authenticated allowPerUser handshakeOk : Bool) : CmdOutcome :=
  if flags.onCtrl then .err 503
  else if argc < 2 then .err 504
  else if flags.haveCcc then .err 534
  else if !haveCert then .err 431
  else if authenticated && !allowPerUser then .err 534
  else
    let mode := upperMode arg
    if mode = "TLS" ∨ mode = "TLS-C" then
      if handshakeOk then .handled 234 { flags with onCtrl := true }
      else .disconnected 421
    else if mode = "SSL" ∨ mode = "TLS-P" then
      if handshakeOk then
        .handled 234 { flags with onCtrl := true, needDataProt := true }
      else .disconnected 421
    else .declined

/-- Embedding of `tls_ccc`.  Guards already passed: `tls_engine` on and
`session.rfc2228_mech` is "TLS".  `requiredOnCtrl` is
`tls_required_on_ctrl`; `limitOk` is the `dir_check` <Limit> result. -/
def tls_ccc (flags : SessFlags) (requiredOnCtrl : Int) (limitOk : Bool) :
    CmdOutcome :=
  if !flags.onCtrl then .err 533
  else if requiredOnCtrl = 1 then .err 534
  else if !limitOk then .err 534
  else .handled 200 { flags with onCtrl := false, haveCcc := true }

/-- Embedding of `tls_pbsz` (guards passed, `2 ≤ argc`): the reply is
200 for any argument, and `TLS_SESS_PBSZ_OK` is set. -/
def tls_pbsz (flags : SessFlags) : CmdOutcome :=
  if !flags.onCtrl then .err 503
  else .handled 200 { flags with pbszOk := true }

/-- Embedding of `tls_prot`.  Guards already passed: `tls_engine` on,
`session.rfc2228_mech` is "TLS", `2 ≤ argc`.  `requiredOnData` is
`tls_required_on_data` (1 = TLS required on data connections, -1 = TLS
forbidden on data connections, 0 = optional); `limitOk` is the
`dir_check` <Limit> result; `arg` is `cmd->argv[1]` (the `strncmp`
calls with length 2 are exact comparisons against the one-byte
strings).  Every accepted PROT sets `TLS_SESS_PBSZ_OK` on the way out,
deliberately not requiring a preceding PBSZ. -/
def tls_prot (flags : SessFlags) (requiredOnData : Int) (limitOk : Bool)
    (arg : String) : CmdOutcome :=
  if !flags.onCtrl && !flags.haveCcc then .err 503
  else if !limitOk then .err 534
  else if arg = "C" then
    if requiredOnData ≠ 1 then
      .handled 200 { flags with needDataProt := false, pbszOk := true }
    else .err 534
  else if arg = "P" then
    if requiredOnData ≠ -1 then
      .handled 200 { flags with needDataProt := true, pbszOk := true }
    else .err 534
  else if arg = "S" ∨ arg = "E" then .err 536
  else .err 504

/-! ## Data-connection session reuse enforcement (`tls_accept`, on_data
branch) -/

/-- Embedding of `memcmp` on two equal-length byte buffers, as used on
session ids and ticket appdata: zero exactly when the bytes agree (the
sign of a nonzero result is never inspected by the callers). -/
def memcmpBytes (a b : List Nat) : Int :=
  if a = b then 0 else 1

/-- Embedding of `tls_compare_session_ids` (OpenSSL >= 0.9.7 branch):
0 when the two session ids have equal length and equal bytes, -1
otherwise. -/
def tls_compare_session_ids (ctrlSessId dataSessId : List Nat) : Int :=
  if ctrlSessId.length = dataSessId.length then
    if memcmpBytes ctrlSessId dataSessId ≠ 0 then -1 else 0
  else -1

/-- Outcome of the post-handshake session-reuse enforcement for a data
connection in `tls_accept`: either the data connection is accepted, or
it is torn down (`tls_end_sess` on `session.d`, the netio notes
removed, a user-visible `tls_log` error emitted) and `tls_accept`
returns -1 (the control session object is not touched). -/
inductive DataAcceptOutcome
  | accepted
  | rejectedTeardown
  deriving Repr, DecidableEq

/-- Embedding of the session-reuse checks that `tls_accept` runs after a
successful handshake on a data connection (`on_data == TRUE`),
with TLSv1.3 and the session-ticket callbacks compiled in.
`noSessionReuseRequired` is the `NoSessionReuseRequired` TLSOption bit;
`haveCcc` is `TLS_SESS_HAVE_CCC`; `reused` is `SSL_session_reused`;
`ctrlSessId`/`dataSessId` are the sessions' ids (`none` when
`SSL_get_session` returned NULL); `ctrlAppdata`/`dataAppdata` are
`tls_ctrl_ticket_appdata` / `tls_data_ticket_appdata` (length
`tls_ctrl_ticket_appdata_len` / `tls_data_ticket_appdata_len`). -/
def tls_accept_data_reuse_check (noSessionReuseRequired haveCcc : Bool)
    (reused : Bool) (ctrlSessId dataSessId : Option (List Nat))
    (ctrlAppdata dataAppdata : List Nat) : DataAcceptOutcome :=
  if noSessionReuseRequired || haveCcc then .accepted
  else if !reused then .rejectedTeardown
  else
    match ctrlSessId, dataSessId with
    | some ctrlId, some dataId =>
      let matchingSess := tls_compare_session_ids ctrlId dataId
      let matchingSess :=
        if matchingSess ≠ 0 then
          if ctrlAppdata.length > 0 ∧ dataAppdata.length > 0 ∧
              ctrlAppdata.length = dataAppdata.length then
            memcmpBytes ctrlAppdata dataAppdata
          else matchingSess
        else matchingSess
      if matchingSess ≠ 0 then .rejectedTeardown else .accepted
    | _, _ => .rejectedTeardown

/-! ## TLS shutdown peek (`peek_is_ssl_data`, `tls_end_sess`) -/

/-- The number of seconds `peek_is_ssl_data` waits in `select` for the
next data. -/
def peekTimeoutSecs : Nat := 5

/-- The size of the `MSG_PEEK` buffer in `peek_is_ssl_data`. -/
def peekBufLen : Nat := 3

/-- What the socket peek in `peek_is_ssl_data` can observe: a `select`
timeout, a `select`/`recv` error, or up to `peekBufLen` peeked bytes. -/
inductive PeekInput
  | timedOut
  | failed
  | bytes (data : List Nat)
  deriving Repr, DecidableEq

/-- `PR_ISPRINT` on a byte.

Modelled from the spec: `PR_ISPRINT` lives in proftpd's headers, not in
this repository; per the comment above `peek_is_ssl_data` ("The
printable ASCII range, which would be used for an FTP command, starts
at 32 (sp)") and C `isprint` it holds exactly for bytes 32..126. -/
def isPrintByte (b : Nat) : Bool :=
  32 ≤ b && b ≤ 126

/-- Embedding of `peek_is_ssl_data`: -1 on error; on timeout,
optimistically 1 (assume an SSL record is coming); otherwise 1 as soon
as any peeked byte is non-printable ASCII, and 0 when every peeked byte
is printable ASCII. -/
def peek_is_ssl_data : PeekInput → Int
  | .timedOut => 1
  | .failed => -1
  | .bytes data => if data.any (fun b => !isPrintByte b) then 1 else 0

/-- What `tls_end_sess` does at the point of a bidirectional shutdown
where `close_notify` has not yet been received from the peer. -/
inductive ShutdownAction
  | proceedShutdown
  | freeWithoutShutdown
  | disconnectSession
  deriving Repr, DecidableEq

/-- Embedding of the `TLS_SHUTDOWN_FL_BIDIRECTIONAL` branch of
`tls_end_sess`, for an SSL whose `close_notify` has not been received
(`!(shutdown_state & SSL_RECEIVED_SHUTDOWN)`) on a live connection: the
engine peeks at the next data; on peek error the session is
disconnected; if the peeked data looks like an FTP command (all
printable), the SSL is freed immediately without any further peer
interaction; otherwise `SSL_shutdown` is called again to await the
peer's `close_notify`. -/
def tls_end_sess_bidi_pending (peeked : PeekInput) : ShutdownAction :=
  let isSslData := peek_is_ssl_data peeked
  if isSslData < 0 then .disconnectSession
  else if isSslData = 0 then .freeWithoutShutdown
  else .proceedShutdown

/-! ## Theorems settling the claims -/

/-- C5: the cached-OCSP-response staleness check classifies a successful
response carrying a `nextUpdate` time as expired once `nextUpdate ≤ now`
and stale once `thisUpdate + (nextUpdate - thisUpdate)/2 ≤ now` (C
truncating division); a successful response without a `nextUpdate` time
as stale once its cache age exceeds 3600 seconds; and a non-successful
response as stale once its cache age exceeds 300 seconds; otherwise the
response is fresh. -/
theorem ocsp_stale_response_classification (tu nu now age : Int) :
    ocsp_stale_response true true true tu (some nu) now age =
        ⟨decide (nu ≤ now ∨ tu + (nu - tu).tdiv 2 ≤ now), decide (nu ≤ now)⟩ ∧
    ocsp_stale_response true true true tu none now age =
        ⟨decide (age > 3600), false⟩ ∧
    ocsp_stale_response false true true tu (some nu) now age =
        ⟨decide (age > 300), false⟩ := by
  refine ⟨?_, rfl, rfl⟩
  by_cases h : nu ≤ now
  · simp [ocsp_stale_response, h]
  · simp only [ocsp_stale_response, if_pos rfl, if_neg h, h, false_or]
    have harith : tu ≤ now - (nu - tu).tdiv 2 ↔ tu + (nu - tu).tdiv 2 ≤ now :=
      le_sub_iff_add_le
    by_cases h2 : tu + (nu - tu).tdiv 2 ≤ now
    · simp [harith.mpr, h2]
    · simp [harith, h2]

/-- C7: on a secured (or CCC-cleared) control connection with the
<Limit> check passing, PROT C succeeds with 200 (clearing
`NEED_DATA_PROT`) exactly when TLS is not required on data connections
(`tls_required_on_data ≠ 1`) and fails with 534 otherwise; PROT P
succeeds with 200 (setting `NEED_DATA_PROT`) exactly when TLS is not
forbidden on data connections (`tls_required_on_data ≠ -1`) and fails
with 534 otherwise; PROT S and PROT E fail with 536; any other argument
fails with 504. -/
theorem prot_policy_replies (flags : SessFlags) (req : Int) (arg : String)
    (hsec : flags.onCtrl = true ∨ flags.haveCcc = true) :
    (tls_prot flags req true "C" =
        .handled 200 { flags with needDataProt := false, pbszOk := true } ↔
      req ≠ 1) ∧
    (tls_prot flags req true "C" = .err 534 ↔ req = 1) ∧
    (tls_prot flags req true "P" =
        .handled 200 { flags with needDataProt := true, pbszOk := true } ↔
      req ≠ -1) ∧
    (tls_prot flags req true "P" = .err 534 ↔ req = -1) ∧
    tls_prot flags req true "S" = .err 536 ∧
    tls_prot flags req true "E" = .err 536 ∧
    (arg ≠ "C" → arg ≠ "P" → arg ≠ "S" → arg ≠ "E" →
      tls_prot flags req true arg = .err 504) := by
  have hins : (!flags.onCtrl && !flags.haveCcc) = false := by
    rcases hsec with h | h <;> simp [h]
  refine ⟨?_, ?_, ?_, ?_, ?_, ?_, ?_⟩
  · by_cases h1 : req = 1 <;> simp [tls_prot, hins, h1]
  · by_cases h1 : req = 1 <;> simp [tls_prot, hins, h1]
  · by_cases h1 : req = -1 <;> simp [tls_prot, hins, h1]
  · by_cases h1 : req = -1 <;> simp [tls_prot, hins, h1]
  · simp [tls_prot, hins]
  · simp [tls_prot, hins]
  · intro hC hP hS hE
    simp [tls_prot, hins, hC, hP, hS, hE]

/-- Witness for `prot_policy_replies` at a secured control connection
with `tls_required_on_data = 0`. -/
theorem prot_policy_replies_witness :
    tls_prot ⟨true, false, false, false⟩ 0 true "C" =
        .handled 200 ⟨true, true, false, false⟩ ∧
    tls_prot ⟨true, false, false, false⟩ 0 true "X" = .err 504 := by
  have h := prot_policy_replies ⟨true, false, false, false⟩ 0 "X"
    (Or.inl rfl)
  exact ⟨h.1.mpr (by decide), h.2.2.2.2.2.2 (by decide) (by decide)
    (by decide) (by decide)⟩

/-- C10: every PROT command that the handler accepts (PR_HANDLED) sets
the `PBSZ_OK` session flag even when no PBSZ was processed beforehand:
the reply is 200, the resulting flags have `pbszOk`, and the outcome is
identical to what the handler produces for a session in which a
successful `PBSZ 0` (which sets exactly the `PBSZ_OK` flag) had already
been processed. -/
theorem prot_sets_pbsz_ok (flags : SessFlags) (req : Int) (limitOk : Bool)
    (arg : String) (reply : Nat) (flags' : SessFlags)
    (h : tls_prot flags req limitOk arg = .handled reply flags') :
    reply = 200 ∧ flags'.pbszOk = true ∧
    tls_pbsz { flags with onCtrl := true } =
      .handled 200 { flags with onCtrl := true, pbszOk := true } ∧
    tls_prot { flags with pbszOk := true } req limitOk arg =
      .handled reply flags' := by
  have hpbsz : tls_pbsz { flags with onCtrl := true } =
      .handled 200 { flags with onCtrl := true, pbszOk := true } := by
    simp [tls_pbsz]
  unfold tls_prot at h
  split_ifs at h with h1 h2 h3 h4 h5 h6 h7
  · injection h with hr hf
    subst hr; subst hf
    refine ⟨rfl, rfl, hpbsz, ?_⟩
    simp [tls_prot, h1, h2, h3, h4]
  · injection h with hr hf
    subst hr; subst hf
    refine ⟨rfl, rfl, hpbsz, ?_⟩
    simp [tls_prot, h1, h2, h3, h5, h6]

/-- Witness for `prot_sets_pbsz_ok`: a PROT C accepted on a session
that never processed PBSZ (`pbszOk = false`) comes out with `pbszOk`
set. -/
theorem prot_sets_pbsz_ok_witness :
    ((⟨true, true, false, false⟩ : SessFlags).pbszOk = true) ∧
    tls_prot ⟨true, true, false, false⟩ 0 true "C" =
      .handled 200 ⟨true, true, false, false⟩ := by
  have h := prot_sets_pbsz_ok ⟨true, false, true, false⟩ 0 true "C" 200
    ⟨true, true, false, false⟩ (by decide)
  exact ⟨h.2.1, h.2.2.2⟩

/-- C8: during a bidirectional TLS shutdown with the peer's
`close_notify` still pending, the engine peeks up to `peekBufLen = 3`
bytes with a `peekTimeoutSecs = 5` second timeout; if any peeked byte
is non-printable ASCII the pending data is treated as a TLS record and
the bidirectional shutdown proceeds, while if every peeked byte is
printable ASCII the bidirectional shutdown stops immediately and the
SSL is freed without further peer interaction (a timeout also lets the
shutdown proceed). -/
theorem shutdown_peek_behavior (data : List Nat) :
    peekTimeoutSecs = 5 ∧ peekBufLen = 3 ∧
    (tls_end_sess_bidi_pending (.bytes data) = .proceedShutdown ↔
      ∃ b ∈ data, isPrintByte b = false) ∧
    (tls_end_sess_bidi_pending (.bytes data) = .freeWithoutShutdown ↔
      ∀ b ∈ data, isPrintByte b = true) ∧
    tls_end_sess_bidi_pending .timedOut = .proceedShutdown := by
  have hiff : data.any (fun b => !isPrintByte b) = true ↔
      ∃ b ∈ data, isPrintByte b = false := by
    simp [List.any_eq_true]
  refine ⟨rfl, rfl, ?_, ?_, rfl⟩ <;>
    by_cases h : data.any (fun b => !isPrintByte b)
  · simp [tls_end_sess_bidi_pending, peek_is_ssl_data, h, hiff.mp h]
  · have hne : ¬∃ b ∈ data, isPrintByte b = false := fun hc => h (hiff.mpr hc)
    simp [tls_end_sess_bidi_pending, peek_is_ssl_data, h, hne]
  · have hex := hiff.mp h
    obtain ⟨b, hb, hbp⟩ := hex
    have : ¬∀ b ∈ data, isPrintByte b = true := by
      intro hall
      rw [hall b hb] at hbp
      exact Bool.noConfusion hbp
    simp [tls_end_sess_bidi_pending, peek_is_ssl_data, h, this]
  · have hall : ∀ b ∈ data, isPrintByte b = true := by
      intro b hb
      by_contra hc
      exact h (hiff.mpr ⟨b, hb, by simpa using hc⟩)
    simp only [tls_end_sess_bidi_pending, peek_is_ssl_data, h]
    norm_num
    exact hall

/-- C1: with the `NoSessionReuseRequired` option unset and no CCC
issued, a completed data-connection handshake is accepted exactly when
the data SSL session is marked reused and either the data session id
equals the control session id or the (nonempty) data ticket appdata is
byte-equal to the control ticket appdata; otherwise — including a
missing control or data session object — the data connection is torn
down and the accept fails, the control session being left alone. -/
theorem data_handshake_session_reuse_enforced (reused : Bool)
    (ctrlId dataId ctrlApp dataApp : List Nat)
    (dataSess : Option (List Nat)) :
    (tls_accept_data_reuse_check false false reused (some ctrlId)
        (some dataId) ctrlApp dataApp = .accepted ↔
      reused = true ∧ (ctrlId = dataId ∨ (ctrlApp = dataApp ∧ ctrlApp ≠ []))) ∧
    tls_accept_data_reuse_check false false reused none dataSess
        ctrlApp dataApp = .rejectedTeardown := by
  have hcmp : ∀ a b : List Nat, tls_compare_session_ids a b =
      if a = b then 0 else -1 := by
    intro a b
    by_cases h : a = b
    · simp [tls_compare_session_ids, memcmpBytes, h]
    · by_cases hl : a.length = b.length <;>
        simp [tls_compare_session_ids, memcmpBytes, h, hl]
  constructor
  · cases reused with
    | false => simp [tls_accept_data_reuse_check]
    | true =>
      by_cases hR : ctrlId = dataId ∨ (ctrlApp = dataApp ∧ ctrlApp ≠ [])
      · have hout : tls_accept_data_reuse_check false false true (some ctrlId)
            (some dataId) ctrlApp dataApp = .accepted := by
          unfold tls_accept_data_reuse_check
          rcases hR with hid | ⟨happ, hnil⟩
          · simp [hcmp, hid]
          · by_cases hid : ctrlId = dataId
            · simp [hcmp, hid]
            · have hlen : ctrlApp.length > 0 ∧ dataApp.length > 0 ∧
                  ctrlApp.length = dataApp.length := by
                subst happ
                exact ⟨by simpa [List.length_pos] using hnil,
                  by simpa [List.length_pos] using hnil, rfl⟩
              simp [hcmp, hid, hlen, memcmpBytes, happ]
        simp [hout, hR]
      · have hout : tls_accept_data_reuse_check false false true (some ctrlId)
            (some dataId) ctrlApp dataApp = .rejectedTeardown := by
          unfold tls_accept_data_reuse_check
          push_neg at hR
          obtain ⟨hid, himp⟩ := hR
          by_cases hlen : ctrlApp.length > 0 ∧ dataApp.length > 0 ∧
              ctrlApp.length = dataApp.length
          · have happ : ctrlApp ≠ dataApp := by
              intro hc
              rw [himp hc] at hlen
              exact absurd hlen.1 (by simp)
            simp [hcmp, hid, hlen, memcmpBytes, happ]
          · simp [hcmp, hid, hlen]
        simp [hout, hR]
  · cases reused <;> simp [tls_accept_data_reuse_check]

/-- C2 counterexample: for an unsecured session with certificates
available, `AUTH KRB5` (an argument other than TLS/TLS-C/SSL/TLS-P) is
declined to other RFC2228 modules; the handler does not reply 504. -/
theorem auth_other_argument_declined_cex :
    tls_auth ⟨false, false, false, false⟩ 2 "KRB5" true false false true =
      .declined ∧
    (CmdOutcome.declined ≠ CmdOutcome.err 504) := by
  exact ⟨by decide, by decide⟩

/-- C2 (amended): the AUTH handler replies 503 when the control channel
is already secured, 504 when no argument was given, 534 (after the
argument-count check) when CCC was previously issued, 431 when no
RSA/DSA/EC/PKCS12 certificate is configured, and — with none of these
applying and USER/PASS authentication not blocking — sends 234 and runs
the server handshake for the (upper-cased) arguments TLS, TLS-C, SSL
and TLS-P, securing the control channel on success; any other argument
is declined to other RFC2228 modules rather than answered 504.  In
particular, after a successful CCC an AUTH carrying an argument fails
with 534, and a bare AUTH fails with 504. -/
theorem auth_replies (flags : SessFlags) (argc : Nat) (arg : String)
    (haveCert authenticated allowPerUser : Bool) :
    (flags.onCtrl = true →
      tls_auth flags argc arg haveCert authenticated allowPerUser true =
        .err 503) ∧
    (flags.onCtrl = false → argc < 2 →
      tls_auth flags argc arg haveCert authenticated allowPerUser true =
        .err 504) ∧
    (flags.onCtrl = false → 2 ≤ argc → flags.haveCcc = true →
      tls_auth flags argc arg haveCert authenticated allowPerUser true =
        .err 534) ∧
    (flags.onCtrl = false → 2 ≤ argc → flags.haveCcc = false →
      haveCert = false →
      tls_auth flags argc arg haveCert authenticated allowPerUser true =
        .err 431) ∧
    (flags.onCtrl = false → 2 ≤ argc → flags.haveCcc = false →
      haveCert = true → authenticated = false →
      (upperMode arg = "TLS" ∨ upperMode arg = "TLS-C" →
        tls_auth flags argc arg haveCert authenticated allowPerUser true =
          .handled 234 { flags with onCtrl := true }) ∧
      (upperMode arg = "SSL" ∨ upperMode arg = "TLS-P" →
        tls_auth flags argc arg haveCert authenticated allowPerUser true =
          .handled 234 { flags with onCtrl := true, needDataProt := true }) ∧
      (upperMode arg ≠ "TLS" → upperMode arg ≠ "TLS-C" →
        upperMode arg ≠ "SSL" → upperMode arg ≠ "TLS-P" →
        tls_auth flags argc arg haveCert authenticated allowPerUser true =
          .declined)) := by
  refine ⟨?_, ?_, ?_, ?_, ?_⟩
  · intro h1
    simp [tls_auth, h1]
  · intro h1 h2
    simp [tls_auth, h1, h2]
  · intro h1 h2 h3
    simp [tls_auth, h1, h3, Nat.not_lt.mpr h2]
  · intro h1 h2 h3 h4
    simp [tls_auth, h1, h3, h4, Nat.not_lt.mpr h2]
  · intro h1 h2 h3 h4 h5
    refine ⟨?_, ?_, ?_⟩
    · intro hm
      rcases hm with hm | hm <;>
        simp [tls_auth, h1, h3, h4, h5, Nat.not_lt.mpr h2, hm]
    · intro hm
      have hne : upperMode arg ≠ "TLS" ∧ upperMode arg ≠ "TLS-C" := by
        rcases hm with hm | hm <;> rw [hm] <;> exact ⟨by decide, by decide⟩
      rcases hm with hm | hm <;>
        simp [tls_auth, h1, h3, h4, h5, Nat.not_lt.mpr h2, hm, hne.1, hne.2]
    · intro hm1 hm2 hm3 hm4
      simp [tls_auth, h1, h3, h4, h5, Nat.not_lt.mpr h2, hm1, hm2, hm3, hm4]

/-- Witness for `auth_replies`: after CCC, `AUTH TLS` fails with 534;
on a fresh session `AUTH tls` (lower case) succeeds with 234. -/
theorem auth_replies_witness :
    tls_auth ⟨false, false, false, true⟩ 2 "TLS" true false false true =
      .err 534 ∧
    tls_auth ⟨false, false, false, false⟩ 2 "tls" true false false true =
      .handled 234 ⟨true, false, false, false⟩ := by
  constructor
  · exact (auth_replies ⟨false, false, false, true⟩ 2 "TLS" true false
      false).2.2.1 rfl (by decide) rfl
  · exact ((auth_replies ⟨false, false, false, false⟩ 2 "tls" true false
      false).2.2.2.2 rfl (by decide) rfl rfl rfl).1 (Or.inl (by decide))

/-- C3 counterexample: with `max_age = 60`, `max_count = 25`, a ring
initialized at time 0 and the rotation timer firing at time 1000 (the
default interval is well below `max_age`, but firings can be delayed
and configurations make this gap reachable), the sole pre-existing key
survives the admission — `remove_expired_ticket_keys` refuses to touch
a ring holding fewer than two keys — so the reachable ring holds a key
whose age `1000 - 0` exceeds `max_age`. -/
theorem ticket_ring_over_age_key_cex :
    RingReachable 60 25 1000
      [(⟨[1], 1000⟩ : TicketKey), (⟨[0], 0⟩ : TicketKey)] ∧
    (⟨[0], 0⟩ : TicketKey) ∈
      [(⟨[1], 1000⟩ : TicketKey), (⟨[0], 0⟩ : TicketKey)] ∧
    60 < 1000 - (⟨[0], 0⟩ : TicketKey).created := by
  refine ⟨?_, by decide, by decide⟩
  have h0 : RingReachable 60 25 0 [(⟨[0], 0⟩ : TicketKey)] := by
    have h := @RingReachable.init 60 25 0 [0]
    have he : init_ticket_ring 60 25 0 [0] = [(⟨[0], 0⟩ : TicketKey)] := by
      decide
    rwa [he] at h
  have h1 := @RingReachable.tick 60 25 0 1000 [1]
    [(⟨[0], 0⟩ : TicketKey)] h0 (by omega)
  have he2 : new_ticket_key_timer_cb 60 25 1000 [1]
      [(⟨[0], 0⟩ : TicketKey)] =
      [(⟨[1], 1000⟩ : TicketKey), (⟨[0], 0⟩ : TicketKey)] := by
    decide
  rwa [he2] at h1

/-- C3 (amended): at every reachable state of the ticket key ring after
initialization (with the configured `max_count ≥ 2`, as enforced by the
`TLSSessionTicketKeys` directive parser), the ring holds at least one
and at most `max_count` keys, and every key other than possibly the
oldest one is no older than `max_age`: expired keys are evicted on
rotation/admission only while at least two keys are present, so the
previously sole (hence oldest) key can outlive `max_age` until the
following rotation. -/
theorem ticket_ring_invariants (maxAge maxCount t : Nat)
    (ring : List TicketKey) (hcount : 2 ≤ maxCount)
    (h : RingReachable maxAge maxCount t ring) :
    1 ≤ ring.length ∧ ring.length ≤ maxCount ∧
      ∀ k ∈ ring.dropLast, t - k.created ≤ maxAge := by
  induction h with
  | init t0 name =>
    have hinit : init_ticket_ring maxAge maxCount t0 name =
        [(⟨name, t0⟩ : TicketKey)] := by
      have hne : ¬((0 : Nat) = maxCount) := by omega
      simp [init_ticket_ring, add_ticket_key, remove_expired_ticket_keys,
        remove_oldest_ticket_key, hne]
    rw [hinit]
    exact ⟨by simp, by simp only [List.length_cons, List.length_nil]; omega,
      by simp⟩
  | tick t t' name ring hr hle ih =>
    obtain ⟨ih1, ih2, _⟩ := ih
    set ring1 := remove_expired_ticket_keys maxAge t' ring with hring1
    set ring2 := if ring1.length = maxCount then remove_oldest_ticket_key ring1
      else ring1 with hring2
    have hadd : new_ticket_key_timer_cb maxAge maxCount t' name ring =
        (⟨name, t'⟩ : TicketKey) :: ring2 := by
      rw [hring2, hring1]
      rfl
    rw [hadd]
    have hlen1 : ring1.length ≤ ring.length := by
      rw [hring1]
      unfold remove_expired_ticket_keys
      split
      · exact le_refl _
      · exact List.length_filter_le _ _
    have hage1 : 2 ≤ ring.length → ∀ k ∈ ring1, t' - k.created ≤ maxAge := by
      intro h2 k hk
      rw [hring1] at hk
      unfold remove_expired_ticket_keys at hk
      rw [if_neg (by omega)] at hk
      have hf := (List.mem_filter.mp hk).2
      simp only [Bool.not_eq_true', decide_eq_false_iff_not, Nat.not_lt] at hf
      exact hf
    have hsub2 : ring2 ⊆ ring1 := by
      rw [hring2]
      split
      · unfold remove_oldest_ticket_key
        split
        · exact fun a ha => ha
        · exact List.dropLast_subset _
      · exact fun a ha => ha
    have hlen2 : ring2.length ≤ maxCount - 1 := by
      rw [hring2]
      split
      · next heq =>
        unfold remove_oldest_ticket_key
        rw [if_neg (by omega), List.length_dropLast]
        omega
      · next hne => omega
    refine ⟨by simp only [List.length_cons]; omega,
      by simp only [List.length_cons]; omega, ?_⟩
    intro k hk
    cases hr2 : ring2 with
    | nil =>
      rw [hr2] at hk
      simp at hk
    | cons a l =>
      rw [hr2, List.dropLast_cons₂] at hk
      rcases List.mem_cons.mp hk with rfl | hk'
      · simp
      · have hk2 : k ∈ ring2 := by
          rw [hr2]
          exact List.mem_of_mem_dropLast hk'
        by_cases h2 : 2 ≤ ring.length
        · exact hage1 h2 k (hsub2 hk2)
        · have hrlen : ring.length = 1 := by omega
          have hr1id : ring1 = ring := by
            rw [hring1]
            unfold remove_expired_ticket_keys
            rw [if_pos (by omega)]
          have hr2id : ring2 = ring1 := by
            rw [hring2, if_neg (by rw [hr1id, hrlen]; omega)]
          have hlen21 : ring2.length = 1 := by rw [hr2id, hr1id, hrlen]
          rw [hr2] at hlen21
          simp only [List.length_cons, Nat.add_left_eq_self,
            List.length_eq_zero] at hlen21
          rw [hlen21] at hk'
          simp at hk'

/-- Witness for `ticket_ring_invariants` at the freshly initialized
ring. -/
theorem ticket_ring_invariants_witness :
    1 ≤ [(⟨[0], 0⟩ : TicketKey)].length ∧
    [(⟨[0], 0⟩ : TicketKey)].length ≤ 25 ∧
    ∀ k ∈ [(⟨[0], 0⟩ : TicketKey)].dropLast, 0 - k.created ≤ 60 := by
  have he : init_ticket_ring 60 25 0 [0] = [(⟨[0], 0⟩ : TicketKey)] := by
    decide
  have h0 : RingReachable 60 25 0 [(⟨[0], 0⟩ : TicketKey)] := by
    have h := @RingReachable.init 60 25 0 [0]
    rwa [he] at h
  exact ticket_ring_invariants 60 25 0 _ (by omega) h0

/-- C9 counterexample: with `max_age = 3600` the timer interval the
code computes is 3600 seconds (the `max_age < 3600` branch is not
taken), while `min(3600, max_age - 1) = 3599`. -/
theorem ticket_key_timer_interval_cex :
    new_ticket_key_intvl 3600 = 3600 ∧
    min 3600 (3600 - 1) = 3599 ∧ (3600 : Nat) ≠ 3599 := by
  exact ⟨rfl, rfl, by decide⟩

/-- C9 (amended): at first initialization the ticket key ring receives
exactly one freshly generated key, and the recurring timer interval is
`max_age - 1` when `max_age < 3600` and 3600 seconds otherwise (this is
`min(3600, max_age - 1)` except at `max_age = 3600`, where the code
keeps 3600); every firing of the timer creates one key stamped with the
current time and admits it into the ring via `add_ticket_key`. -/
theorem ticket_key_generation_schedule (maxAge maxCount now t0 : Nat)
    (name name0 : List Nat) (ring : List TicketKey) :
    (init_ticket_ring maxAge maxCount t0 name0).length = 1 ∧
    (maxAge < 3600 → new_ticket_key_intvl maxAge = maxAge - 1) ∧
    (3600 ≤ maxAge → new_ticket_key_intvl maxAge = 3600) ∧
    new_ticket_key_timer_cb maxAge maxCount now name ring =
      add_ticket_key maxAge maxCount now ⟨name, now⟩ ring ∧
    (⟨name, now⟩ : TicketKey) ∈
      new_ticket_key_timer_cb maxAge maxCount now name ring := by
  refine ⟨?_, ?_, ?_, rfl, ?_⟩
  · unfold init_ticket_ring add_ticket_key remove_expired_ticket_keys
      remove_oldest_ticket_key
    by_cases h : maxCount = 0 <;> simp [h]
  · intro h
    simp [new_ticket_key_intvl, h]
  · intro h
    simp [new_ticket_key_intvl, Nat.not_lt.mpr h]
  · unfold new_ticket_key_timer_cb add_ticket_key
    exact List.mem_cons_self _ _

/-- Witness for `ticket_key_generation_schedule` at the default
`max_age` (43200) and at a sub-hour `max_age`. -/
theorem ticket_key_generation_schedule_witness :
    new_ticket_key_intvl 43200 = 3600 ∧ new_ticket_key_intvl 60 = 59 := by
  exact ⟨(ticket_key_generation_schedule 43200 25 0 0 [] [] []).2.2.1
      (by decide),
    (ticket_key_generation_schedule 60 25 0 0 [] [] []).2.1 (by decide)⟩

/-- C4 counterexample: a control-channel TLSv1.2 session presenting a
ticket encrypted under the older of two ring keys (matched by name, not
the newest) gets return code 1 ("use"), not the claimed "renew" code 2
— the `k != newest_key` comparison in the decrypt path only logs. -/
theorem ticket_decrypt_not_newest_cex :
    get_ticket_key
        [(⟨[1], 100⟩ : TicketKey), (⟨[2], 0⟩ : TicketKey)] [2] =
      some (⟨[2], 0⟩ : TicketKey) ∧
    [(⟨[1], 100⟩ : TicketKey), (⟨[2], 0⟩ : TicketKey)].head? =
      some (⟨[1], 100⟩ : TicketKey) ∧
    (⟨[2], 0⟩ : TicketKey) ≠ (⟨[1], 100⟩ : TicketKey) ∧
    tls_ticket_key_cb_decrypt
        [(⟨[1], 100⟩ : TicketKey), (⟨[2], 0⟩ : TicketKey)] [2] false = 1 ∧
    (1 : Int) ≠ 2 := by
  exact ⟨by decide, by decide, by decide, by decide, by decide⟩

/-- C4 (amended): in the decrypt path (mode 0) of the session ticket
key callback, a ticket whose key name matches no ring key is rejected
(return 0); a matched key yields the "renew" code 2 exactly for
TLSv1.3 sessions — irrespective of channel and of whether the matched
key is the newest, the age comparison being log-only — and the "use"
code 1 for older protocol versions.  For TLSv1.3 data transfers, where
the renew request would be propagated as `SSL_TICKET_SUCCESS_RENEW`,
the data-transfer decrypt callback downgrades it to "use", so tickets
are never renewed during a data transfer, while the control-channel
decrypt callback keeps the renewal. -/
theorem ticket_decrypt_return_codes (ring : List TicketKey)
    (name : List Nat) :
    (get_ticket_key ring name = none →
      tls_ticket_key_cb_decrypt ring name true = 0 ∧
      tls_ticket_key_cb_decrypt ring name false = 0) ∧
    (∀ k, get_ticket_key ring name = some k →
      tls_ticket_key_cb_decrypt ring name true = 2 ∧
      tls_ticket_key_cb_decrypt ring name false = 1) ∧
    tls_decrypt_data_session_ticket_cb .successRenew = .use ∧
    tls_decrypt_ctrl_session_ticket_cb .successRenew = .useRenew := by
  refine ⟨?_, ?_, rfl, rfl⟩
  · intro h
    unfold tls_ticket_key_cb_decrypt
    rw [h]
    exact ⟨rfl, rfl⟩
  · intro k h
    unfold tls_ticket_key_cb_decrypt
    rw [h]
    exact ⟨rfl, rfl⟩

/-- Witness for `ticket_decrypt_return_codes` on a one-key ring. -/
theorem ticket_decrypt_return_codes_witness :
    (tls_ticket_key_cb_decrypt [(⟨[7], 0⟩ : TicketKey)] [7] true = 2 ∧
      tls_ticket_key_cb_decrypt [(⟨[7], 0⟩ : TicketKey)] [7] false = 1) ∧
    (tls_ticket_key_cb_decrypt [(⟨[7], 0⟩ : TicketKey)] [8] true = 0 ∧
      tls_ticket_key_cb_decrypt [(⟨[7], 0⟩ : TicketKey)] [8] false = 0) := by
  exact ⟨(ticket_decrypt_return_codes [(⟨[7], 0⟩ : TicketKey)] [7]).2.1
      (⟨[7], 0⟩ : TicketKey) (by decide),
    (ticket_decrypt_return_codes [(⟨[7], 0⟩ : TicketKey)] [8]).1 (by decide)⟩

/-- Helper: `tls_dh_cb` with no RSA/DSA private key and a nonempty
configured parameter list reduces to the two search loops (the second
scanning against a private-key length of 0). -/
theorem tls_dh_cb_none_reduce (allowWeak : Bool) (dhs : List Nat)
    (keylen : Int) (hd : dhs ≠ []) :
    tls_dh_cb allowWeak none dhs keylen =
      (match dh_search_loop keylen dhs none with
       | Sum.inl d => DHParam.configured d
       | Sum.inr best1 =>
         match dh_search_loop 0 dhs best1 with
         | Sum.inl d => DHParam.configured d
         | Sum.inr (some b) => DHParam.configured b
         | Sum.inr none =>
           dh_builtin (if keylen < TLS_DH_MIN_LEN ∧ ¬allowWeak
             then TLS_DH_MIN_LEN else keylen)) := by
  unfold tls_dh_cb
  dsimp only
  rw [if_pos hd]
  rcases h1 : dh_search_loop keylen dhs none with d | b1
  · rfl
  · dsimp only
    rcases h2 : dh_search_loop 0 dhs b1 with d | b2
    · rfl
    · cases b2 <;> rfl

/-- Helper: the search loop returns the first exact match when one
exists, whatever the running best candidate. -/
theorem dh_search_loop_exact (keylen : Int) (l : List Nat) (best : Option Nat)
    (h : ∃ d ∈ l, (d : Int) = keylen) :
    ∃ d, dh_search_loop keylen l best = Sum.inl d ∧ (d : Int) = keylen := by
  induction l generalizing best with
  | nil => simp at h
  | cons a l ih =>
    by_cases ha : (a : Int) = keylen
    · exact ⟨a, by simp [dh_search_loop, ha], ha⟩
    · have h' : ∃ d ∈ l, (d : Int) = keylen := by
        rcases h with ⟨d, hd, he⟩
        rcases List.mem_cons.mp hd with rfl | hd'
        · exact absurd he ha
        · exact ⟨d, hd', he⟩
      unfold dh_search_loop
      rw [if_neg ha]
      by_cases hgt : (a : Int) > keylen
      · rw [if_pos hgt]
        cases best with
        | none => exact ih _ h'
        | some b =>
          dsimp only
          by_cases hab : a < b
          · rw [if_pos hab]
            exact ih _ h'
          · rw [if_neg hab]
            exact ih _ h'
      · rw [if_neg hgt]
        exact ih _ h'

/-- Helper: when no exact match exists, the search loop finishes with a
best candidate that is sound (an element larger than the target, or the
incoming candidate) and minimal among the incoming candidate and all
larger elements. -/
theorem dh_search_loop_no_exact (keylen : Int) (l : List Nat)
    (best : Option Nat) (hne : ∀ d ∈ l, (d : Int) ≠ keylen) :
    ∃ b : Option Nat, dh_search_loop keylen l best = Sum.inr b ∧
      (∀ x : Nat, b = some x → ((x ∈ l ∧ keylen < (x : Int)) ∨ best = some x)) ∧
      (∀ d ∈ l, keylen < (d : Int) → ∃ x, b = some x ∧ x ≤ d) ∧
      (∀ b0, best = some b0 → ∃ x, b = some x ∧ x ≤ b0) := by
  induction l generalizing best with
  | nil =>
    refine ⟨best, rfl, fun x hx => Or.inr hx, by simp, ?_⟩
    intro b0 hb0
    exact ⟨b0, hb0, le_refl b0⟩
  | cons a l ih =>
    have ha : (a : Int) ≠ keylen := hne a (List.mem_cons_self a l)
    have hne' : ∀ d ∈ l, (d : Int) ≠ keylen :=
      fun d hd => hne d (List.mem_cons_of_mem a hd)
    unfold dh_search_loop
    rw [if_neg ha]
    by_cases hgt : (a : Int) > keylen
    · rw [if_pos hgt]
      cases best with
      | none =>
        obtain ⟨b, hb, h1, h2, h3⟩ := ih (some a) hne'
        refine ⟨b, hb, ?_, ?_, by simp⟩
        · intro x hx
          rcases h1 x hx with ⟨hxl, hxgt⟩ | hxa
          · exact Or.inl ⟨List.mem_cons_of_mem a hxl, hxgt⟩
          · have : x = a := by injection hxa.symm
            subst this
            exact Or.inl ⟨List.mem_cons_self x l, hgt⟩
        · intro d hd hdgt
          rcases List.mem_cons.mp hd with rfl | hd'
          · exact h3 d rfl
          · exact h2 d hd' hdgt
      | some b0 =>
        dsimp only
        by_cases hab : a < b0
        · rw [if_pos hab]
          obtain ⟨b, hb, h1, h2, h3⟩ := ih (some a) hne'
          refine ⟨b, hb, ?_, ?_, ?_⟩
          · intro x hx
            rcases h1 x hx with ⟨hxl, hxgt⟩ | hxa
            · exact Or.inl ⟨List.mem_cons_of_mem a hxl, hxgt⟩
            · have : x = a := by injection hxa.symm
              subst this
              exact Or.inl ⟨List.mem_cons_self x l, hgt⟩
          · intro d hd hdgt
            rcases List.mem_cons.mp hd with rfl | hd'
            · exact h3 d rfl
            · exact h2 d hd' hdgt
          · intro c0 hc0
            have : c0 = b0 := by injection hc0.symm
            subst this
            obtain ⟨x, hx, hxa⟩ := h3 a rfl
            exact ⟨x, hx, le_of_lt (lt_of_le_of_lt hxa hab)⟩
        · rw [if_neg hab]
          obtain ⟨b, hb, h1, h2, h3⟩ := ih (some b0) hne'
          refine ⟨b, hb, ?_, ?_, ?_⟩
          · intro x hx
            rcases h1 x hx with ⟨hxl, hxgt⟩ | hxb
            · exact Or.inl ⟨List.mem_cons_of_mem a hxl, hxgt⟩
            · exact Or.inr hxb
          · intro d hd hdgt
            rcases List.mem_cons.mp hd with rfl | hd'
            · obtain ⟨x, hx, hxb⟩ := h3 b0 rfl
              exact ⟨x, hx, le_trans hxb (Nat.le_of_not_lt hab)⟩
            · exact h2 d hd' hdgt
          · exact h3
    · rw [if_neg hgt]
      obtain ⟨b, hb, h1, h2, h3⟩ := ih best hne'
      refine ⟨b, hb, ?_, ?_, h3⟩
      · intro x hx
        rcases h1 x hx with ⟨hxl, hxgt⟩ | hxb
        · exact Or.inl ⟨List.mem_cons_of_mem a hxl, hxgt⟩
        · exact Or.inr hxb
      · intro d hd hdgt
        rcases List.mem_cons.mp hd with rfl | hd'
        · exact absurd hdgt hgt
        · exact h2 d hd' hdgt

/-- C6 (amended): with no RSA/DSA private key on the connection (so the
certificate-derived `pkeylen` is 0), the DH parameter callback returns
a configured parameter of exactly `keylen` bits when one exists;
otherwise — because every configured parameter exceeds the zero
`pkeylen` — it returns the smallest configured parameter overall, even
one smaller than `keylen`; only with no configured parameters at all
does it fall back to a built-in parameter, with `keylen` overridden to
`TLS_DH_MIN_LEN = 2048` when `AllowWeakDH` is unset and `keylen` is
below 2048. -/
theorem dh_param_selection (allowWeak : Bool) (dhs : List Nat) (keylen : Int)
    (hpos : ∀ d ∈ dhs, 0 < d) :
    ((∃ d ∈ dhs, (d : Int) = keylen) →
      ∃ d, tls_dh_cb allowWeak none dhs keylen = .configured d ∧
        (d : Int) = keylen) ∧
    ((∀ d ∈ dhs, (d : Int) ≠ keylen) → dhs ≠ [] →
      ∃ m, tls_dh_cb allowWeak none dhs keylen = .configured m ∧
        m ∈ dhs ∧ ∀ d ∈ dhs, m ≤ d) ∧
    (tls_dh_cb allowWeak none [] keylen =
      dh_builtin (if keylen < TLS_DH_MIN_LEN ∧ ¬allowWeak then TLS_DH_MIN_LEN
        else keylen)) := by
  refine ⟨?_, ?_, ?_⟩
  · intro hex
    have hd : dhs ≠ [] := by
      rcases hex with ⟨d, hdm, _⟩
      exact List.ne_nil_of_mem hdm
    obtain ⟨d, hloop, hde⟩ := dh_search_loop_exact keylen dhs none hex
    refine ⟨d, ?_, hde⟩
    rw [tls_dh_cb_none_reduce allowWeak dhs keylen hd, hloop]
  · intro hne hd
    obtain ⟨b1, hl1, p11, p12, p13⟩ :=
      dh_search_loop_no_exact keylen dhs none hne
    have hne0 : ∀ d ∈ dhs, (d : Int) ≠ 0 := by
      intro d hdm hc
      have hdc : d = 0 := by exact_mod_cast hc
      have := hpos d hdm
      omega
    obtain ⟨b2, hl2, p21, p22, p23⟩ :=
      dh_search_loop_no_exact 0 dhs b1 hne0
    obtain ⟨d0, hd0⟩ := List.exists_mem_of_ne_nil dhs hd
    obtain ⟨m, hm, _⟩ := p22 d0 hd0 (by exact_mod_cast hpos d0 hd0)
    have hmmem : m ∈ dhs := by
      rcases p21 m hm with ⟨h1, _⟩ | hb1m
      · exact h1
      · rcases p11 m hb1m with ⟨h1, _⟩ | hnone
        · exact h1
        · exact Option.noConfusion hnone
    have hmin : ∀ d ∈ dhs, m ≤ d := by
      intro d hdm
      obtain ⟨x, hx, hxd⟩ := p22 d hdm (by exact_mod_cast hpos d hdm)
      rw [hm] at hx
      injection hx with hx'
      exact hx' ▸ hxd
    refine ⟨m, ?_, hmmem, hmin⟩
    rw [hm] at hl2
    rw [tls_dh_cb_none_reduce allowWeak dhs keylen hd, hl1]
    dsimp only
    rw [hl2]
  · rfl

/-- C6 counterexample: with an EC-only certificate (no RSA/DSA private
key), a single configured 512-bit DH parameter and a 1024-bit request,
the code returns the configured 512-bit parameter (the second search
loop, scanning against the zero private-key length, accepts every
configured parameter), whereas the claimed procedure — exact match,
else smallest strictly larger, else built-in with the weak-DH override
to 2048 — would serve the built-in 2048-bit parameter. -/
theorem dh_param_selection_cex :
    tls_dh_cb false none [512] 1024 = .configured 512 ∧
    dh_cb_claim false [512] 1024 = .builtin 2048 ∧
    DHParam.configured 512 ≠ DHParam.builtin 2048 := by
  exact ⟨by decide, by decide, by decide⟩

/-- Witness for `dh_param_selection`: a lone configured 512-bit
parameter is served for a 1024-bit request. -/
theorem dh_param_selection_witness :
    ∃ m, tls_dh_cb false none [512] 1024 = .configured m ∧
      m ∈ [512] ∧ ∀ d ∈ [512], m ≤ d := by
  exact (dh_param_selection false [512] 1024 (by decide)).2.1
    (by decide) (by decide)

end ModTLS
